import Mathlib

/-!
Verification of the multi-node signing protocol of hedera-wallet-connect
(HIP-1190): node selection, the wallet-side signing handler, and the
requester-side reconstruction of signed transactions.

The repository ships the shared payload type declarations
(`src/lib/shared/payloads.ts`) and the test suites of `getRandomNodes`,
`Wallet.hedera_signTransactions` / `HIP820Wallet.hedera_signTransactions`
and `DAppSigner.signTransactions`; the implementations of those operations
are not part of the sources, so they are modelled here from the
specification, as noted on each definition.
-/

namespace HederaWC

/-- Hedera account identifier in shard.realm.num form; used both for the
signer account and for node account ids (`NodeId` in the spec). -/
structure AccountId where
  shard : Nat
  realm : Nat
  num : Nat
deriving DecidableEq, Repr

/-- Modelled from the spec: `CanonicalTransactionBody` (spec section 3) — an
immutable structural record of a transaction's effects together with the
optional node identifier field that the codec can strip or inject. The
economic content (transfers, fees, memo, transaction id, validity window) is
kept opaque as a byte list. -/
structure TransactionBody where
  nodeAccountID : Option AccountId
  content : List Nat
deriving DecidableEq, Repr

/-- Modelled from the spec: the encoding half of `TransactionBodyCodec`
(spec sections 2 and 4.2), an external collaborator treated as an opaque
byte codec. A leading tag records whether a node id is present. -/
def encodeBody (b : TransactionBody) : List Nat :=
  match b.nodeAccountID with
  | none => 0 :: b.content
  | some n => 1 :: n.shard :: n.realm :: n.num :: b.content

/-- Modelled from the spec: the decoding half of `TransactionBodyCodec`.
Byte lists that do not carry a valid tag fail to decode (`none`), which is
the "Failed to decode transaction body" branch of the wallet handler. -/
def decodeBody : List Nat → Option TransactionBody
  | 0 :: rest => some ⟨none, rest⟩
  | 1 :: s :: r :: m :: rest => some ⟨some ⟨s, r, m⟩, rest⟩
  | _ => none

/-- Modelled from the spec: `SignatureMap` (spec section 3) — an ordered set
of (public-key-prefix, signature-bytes) pairs, opaque to the core beyond
"non-empty, decodable". -/
structure SignatureMap where
  sigPair : List (Nat × Nat)
deriving DecidableEq, Repr

/-- Wire encoding of a `SignatureMap`: the flattened pair list. -/
def encodeSigMap (m : SignatureMap) : List Nat :=
  m.sigPair.foldr (fun p acc => p.1 :: p.2 :: acc) []

/-- Decodes the flattened pair list of a signature map; an odd-length tail is
malformed. -/
def decodeSigPairs : List Nat → Option (List (Nat × Nat))
  | [] => some []
  | a :: b :: rest => (decodeSigPairs rest).map (fun l => (a, b) :: l)
  | _ => none

/-- Modelled from the spec: decoding of a wallet-returned signature map on
the requester side (spec section 4.3). A structurally empty or malformed
byte list fails to decode. -/
def decodeSigMap (bytes : List Nat) : Option SignatureMap :=
  match bytes with
  | [] => none
  | _ :: _ => (decodeSigPairs bytes).map SignatureMap.mk

/-- Removes the node identifier from a transaction body, keeping the
canonical content. -/
def stripNodeId (b : TransactionBody) : TransactionBody :=
  { b with nodeAccountID := none }

/-- Injects a node identifier into a copy of a transaction body, producing
the node-scoped transaction body for that node. -/
def nodeScopedBody (b : TransactionBody) (node : AccountId) : TransactionBody :=
  { b with nodeAccountID := some node }

/-- Errors of the node selector (spec section 4.1). -/
inductive NodeSelectorError where
  | invalidCount
  | insufficientNodes
deriving DecidableEq, Repr

/-- Modelled from the spec: the Fisher-Yates-style partial shuffle behind
`getRandomNodes` / `selectNodes` (spec sections 4.1 and 9, design notes):
at each step one element of the remaining pool is drawn at a position given
by the entropy source and removed from the pool. -/
def sampleWithoutReplacement (rand : Nat → Nat) : List AccountId → Nat → List AccountId
  | _, 0 => []
  | [], _ + 1 => []
  | a :: l, k + 1 =>
    let i := rand k % (a :: l).length
    (a :: l).get ⟨i, Nat.mod_lt _ (Nat.succ_pos _)⟩ ::
      sampleWithoutReplacement rand ((a :: l).eraseIdx i) k

/-- Modelled from the spec: `selectNodes(roster, count)` (spec section 4.1,
`getRandomNodes` in `src/lib/shared/utils.ts`, absent from the sources).
Fails with `InvalidCount` when `count <= 0`, with `InsufficientNodes` when
the roster has fewer than `count` distinct entries, and otherwise draws
`count` pairwise-distinct node ids without replacement. No clamping. -/
def selectNodes (roster : List AccountId) (count : Int) (rand : Nat → Nat) :
    Except NodeSelectorError (List AccountId) :=
  if count ≤ 0 then .error .invalidCount
  else if roster.dedup.length < count.toNat then .error .insufficientNodes
  else .ok (sampleWithoutReplacement rand roster.dedup count.toNat)

/-- JSON-RPC shaped error of the wallet boundary (spec section 6). -/
inductive RpcError where
  | invalidParams (message : String)
  | internalError (message : String)
deriving DecidableEq, Repr

/-- JSON-RPC error code: `-32602` for invalid params, `-32603` for internal
errors (spec section 6). -/
def RpcError.code : RpcError → Int
  | .invalidParams _ => -32602
  | .internalError _ => -32603

/-- The human-readable message carried by a wallet-boundary error. -/
def RpcError.message : RpcError → String
  | .invalidParams m => m
  | .internalError m => m

/-- Modelled from the spec: `SigningResult` (spec section 3) — parallel
ordered sequences of signature maps and node account ids. -/
structure SigningResult where
  signatureMaps : List SignatureMap
  nodeAccountIds : List AccountId
deriving DecidableEq, Repr

/-- Modelled from the spec: steps 5-6 of `WalletSigningService.handle`
(spec section 4.2): for each selected node id, a node-scoped transaction is
built by injecting the node id into a copy of the decoded body and the
external signing capability is invoked on its byte encoding; the signatures
are collected in selection order, all-or-nothing. -/
def signForNodes (sign : List Nat → Option SignatureMap) (body : TransactionBody) :
    List AccountId → Option (List SignatureMap)
  | [] => some []
  | n :: ns =>
    match sign (encodeBody (nodeScopedBody body n)), signForNodes sign body ns with
    | some s, some rest => some (s :: rest)
    | _, _ => none

/-- Modelled from the spec: `WalletSigningService.handle` (spec section 4.2,
the wallet-side `hedera_signTransactions` handler, absent from the
sources). Decode, reject preset node id, validate the count, select nodes,
sign one node-scoped body per node, and return the parallel result. -/
def handle (roster : List AccountId) (rand : Nat → Nat)
    (sign : List Nat → Option SignatureMap)
    (rawTransactionBodyBytes : List Nat) (requestedNodeCount : Int) :
    Except RpcError SigningResult :=
  match decodeBody rawTransactionBodyBytes with
  | none => .error (.invalidParams "Failed to decode transaction body")
  | some body =>
    match body.nodeAccountID with
    | some _ =>
      .error (.invalidParams "Transaction body must not have nodeAccountId set")
    | none =>
      if requestedNodeCount ≤ 0 then
        .error (.invalidParams "nodeCount must be a positive number")
      else
        match selectNodes roster requestedNodeCount rand with
        | .error _ => .error (.internalError "Node selection failed")
        | .ok nodes =>
          match signForNodes sign body nodes with
          | none => .error (.internalError "Signing failed: signing capability error")
          | some sigs => .ok ⟨sigs, nodes⟩

/-- Errors of the requester-side reconstruction (spec sections 4.3 and 7). -/
inductive ReconstructError where
  | malformedResponse
  | malformedSignatureMap
deriving DecidableEq, Repr

/-- A fully signed, frozen, ready-to-submit transaction rebuilt on the
requester side. -/
structure SignedTransaction where
  body : TransactionBody
  sigMap : SignatureMap
  frozen : Bool
deriving DecidableEq, Repr

/-- Modelled from the spec: one step of `RequesterReconstructor.reconstruct`
(spec section 4.3): inject the i-th node id into a fresh copy of the
requester's own canonical body, attach the decoded i-th signature map, and
mark the result frozen. Fails when the wallet's signature map is
malformed. -/
def reconstructOne (originalBody : TransactionBody) (node : AccountId)
    (sigWire : List Nat) : Option SignedTransaction :=
  (decodeSigMap sigWire).map fun m =>
    { body := nodeScopedBody (stripNodeId originalBody) node
      sigMap := m
      frozen := true }

/-- Folds `reconstructOne` over the parallel wire arrays, all-or-nothing. -/
def reconstructList (originalBody : TransactionBody) :
    List (List Nat) → List AccountId → Option (List SignedTransaction)
  | [], [] => some []
  | w :: ws, n :: ns =>
    match reconstructOne originalBody n w, reconstructList originalBody ws ns with
    | some t, some ts => some (t :: ts)
    | _, _ => none
  | _, _ => none

/-- Modelled from the spec: `RequesterReconstructor.reconstruct`
(spec section 4.3, the reconstruction inside `DAppSigner.signTransactions`,
absent from the sources). Mismatched array lengths abort with
`MalformedResponse`; a bad signature map aborts the whole reconstruction. -/
def reconstruct (originalBody : TransactionBody) (signatureMapsWire : List (List Nat))
    (nodeAccountIds : List AccountId) : Except ReconstructError (List SignedTransaction) :=
  if signatureMapsWire.length ≠ nodeAccountIds.length then .error .malformedResponse
  else
    match reconstructList originalBody signatureMapsWire nodeAccountIds with
    | none => .error .malformedSignatureMap
    | some ts => .ok ts

/-- The complete serialized bytes of a reconstructed signed transaction:
its node-scoped body followed by its signature map. -/
def serializeSignedTransaction (t : SignedTransaction) : List Nat :=
  encodeBody t.body ++ encodeSigMap t.sigMap

/-- The list of transactions a successful reconstruction produces, written
positionally: the i-th transaction pairs the i-th node id with the decoded
i-th signature map over the requester's own stripped body. -/
def reconstructedTransactions (originalBody : TransactionBody)
    (signatureMapsWire : List (List Nat)) (nodeAccountIds : List AccountId) :
    List SignedTransaction :=
  List.zipWith
    (fun w n =>
      { body := nodeScopedBody (stripNodeId originalBody) n
        sigMap := (decodeSigMap w).getD ⟨[]⟩
        frozen := true })
    signatureMapsWire nodeAccountIds

/-- Modelled from the spec: the outbound `SigningRequest` of the wallet
transport (spec sections 3 and 6): signer account id, the encoded canonical
body, and the optional node count. -/
structure SignTransactionsRequestWire where
  signerAccountId : String
  transactionBody : List Nat
  nodeCount : Option Int
deriving DecidableEq, Repr

/-- Modelled from the spec: how `DAppSigner.signTransactions` builds the
request it sends across the wallet boundary: the requester's body is
stripped of any preset node id before being encoded, so the transmitted
body never carries a node account id. -/
def buildSignTransactionsRequest (signerAccountId : String) (tx : TransactionBody)
    (nodeCount : Option Int) : SignTransactionsRequestWire :=
  { signerAccountId := signerAccountId
    transactionBody := encodeBody (stripNodeId tx)
    nodeCount := nodeCount }

/-- Modelled from the spec: the requester-side `DAppSigner.signTransactions`
pipeline (absent from the sources): build the outbound request, obtain the
wallet's parallel arrays, and reconstruct the signed transactions locally
from the requester's own body. -/
def dappSignTransactions (signerAccountId : String) (tx : TransactionBody)
    (nodeCount : Option Int)
    (walletRespond : SignTransactionsRequestWire → List (List Nat) × List AccountId) :
    Except ReconstructError (List SignedTransaction) :=
  let req := buildSignTransactionsRequest signerAccountId tx nodeCount
  let resp := walletRespond req
  reconstruct tx resp.1 resp.2

/-- Whether the character list `p` occurs at the start of `s`. -/
def charsStart : List Char → List Char → Bool
  | [], _ => true
  | _ :: _, [] => false
  | p :: ps, c :: cs => p = c && charsStart ps cs

/-- Whether the character list `p` occurs contiguously inside `s`. -/
def charsOccur (p : List Char) : List Char → Bool
  | [] => p.isEmpty
  | c :: cs => charsStart p (c :: cs) || charsOccur p cs

/-- Whether `pat` occurs as a contiguous substring of `s`. -/
def containsSubstring (s pat : String) : Bool :=
  charsOccur pat.toList s.toList

/-- Concrete roster of three testnet consensus nodes, as in the test
suites. -/
def rosterEx : List AccountId := [⟨0, 0, 3⟩, ⟨0, 0, 4⟩, ⟨0, 0, 5⟩]

/-- Concrete degenerate entropy source used to exercise the selection. -/
def randEx : Nat → Nat := fun _ => 0

/-- Concrete signature map with a single pair. -/
def sigMapEx : SignatureMap := ⟨[(1, 2)]⟩

/-- Concrete signing capability that signs every byte string. -/
def signEx : List Nat → Option SignatureMap := fun _ => some sigMapEx

/-- Concrete signing capability whose key is unavailable: it fails on every
byte string. -/
def signFailEx : List Nat → Option SignatureMap := fun _ => none

/-- Concrete canonical transaction body without a node id. -/
def bodyEx : TransactionBody := ⟨none, [7]⟩

/-- The encoded bytes of `bodyEx`. -/
def rawEx : List Nat := encodeBody bodyEx

/-- Concrete transaction body that already carries a node id. -/
def presetBodyEx : TransactionBody := ⟨some ⟨0, 0, 3⟩, [7]⟩

/-- The wire encoding of `sigMapEx`. -/
def sigWireEx : List Nat := encodeSigMap sigMapEx

/-- The signing result `handle` produces on the concrete example inputs. -/
def resEx : SigningResult := ⟨[sigMapEx, sigMapEx], [⟨0, 0, 3⟩, ⟨0, 0, 4⟩]⟩

/-- The body codec round-trips: decoding an encoded body restores it. -/
theorem decodeBody_encodeBody (b : TransactionBody) : decodeBody (encodeBody b) = some b := by
  cases b with
  | mk node content =>
    cases node with
    | none => rfl
    | some n => rfl

/-- In a duplicate-free list, the element drawn at an index does not occur in
the list with that index erased. -/
theorem getElem_not_mem_eraseIdx (l : List AccountId) (i : Nat) (h : i < l.length)
    (hn : l.Nodup) : l[i] ∉ l.eraseIdx i := by
  rw [List.mem_eraseIdx_iff_getElem]
  rintro ⟨j, hj, hne, heq⟩
  exact hne (List.Nodup.getElem_inj_iff hn |>.1 heq)

/-- Drawing zero elements yields the empty selection. -/
theorem sampleWithoutReplacement_zero (rand : Nat → Nat) (l : List AccountId) :
    sampleWithoutReplacement rand l 0 = [] := by
  cases l <;> rfl

/-- Drawing from an empty pool yields the empty selection. -/
theorem sampleWithoutReplacement_nil (rand : Nat → Nat) (k : Nat) :
    sampleWithoutReplacement rand [] k = [] := by
  cases k <;> rfl

/-- Unfolding of one drawing step of the partial shuffle. -/
theorem sampleWithoutReplacement_cons (rand : Nat → Nat) (a : AccountId)
    (l : List AccountId) (k : Nat) :
    sampleWithoutReplacement rand (a :: l) (k + 1) =
      (a :: l).get ⟨rand k % (a :: l).length, Nat.mod_lt _ (Nat.succ_pos _)⟩ ::
        sampleWithoutReplacement rand ((a :: l).eraseIdx (rand k % (a :: l).length)) k := rfl

/-- Erasing one valid index of a nonempty list shortens it by one. -/
theorem eraseIdx_cons_length (a : AccountId) (l : List AccountId) (i : Nat)
    (h : i < (a :: l).length) : ((a :: l).eraseIdx i).length = l.length := by
  rw [List.length_eraseIdx, if_pos h]
  simp

/-- The partial shuffle draws exactly `k` elements whenever the pool holds at
least `k` of them. -/
theorem sampleWithoutReplacement_length (rand : Nat → Nat) :
    ∀ (k : Nat) (l : List AccountId), k ≤ l.length →
      (sampleWithoutReplacement rand l k).length = k := by
  intro k
  induction k with
  | zero => intro l _; rw [sampleWithoutReplacement_zero]; rfl
  | succ k ih =>
    intro l hk
    match l with
    | [] => simp at hk
    | a :: l =>
      rw [sampleWithoutReplacement_cons, List.length_cons, ih]
      rw [eraseIdx_cons_length a l _ (Nat.mod_lt _ (Nat.succ_pos _))]
      simp only [List.length_cons] at hk
      omega

/-- Every element the partial shuffle draws comes from the pool. -/
theorem sampleWithoutReplacement_subset (rand : Nat → Nat) :
    ∀ (k : Nat) (l : List AccountId) (x : AccountId),
      x ∈ sampleWithoutReplacement rand l k → x ∈ l := by
  intro k
  induction k with
  | zero => intro l x hx; rw [sampleWithoutReplacement_zero] at hx; simp at hx
  | succ k ih =>
    intro l x hx
    match l with
    | [] => rw [sampleWithoutReplacement_nil] at hx; simp at hx
    | a :: l =>
      rw [sampleWithoutReplacement_cons] at hx
      simp only [List.mem_cons, List.get_eq_getElem] at hx
      rcases hx with hx | hx
      · rw [hx]; exact List.getElem_mem _
      · exact (List.eraseIdx_sublist _ _).subset (ih _ x hx)

/-- The partial shuffle never draws the same element twice from a
duplicate-free pool. -/
theorem sampleWithoutReplacement_nodup (rand : Nat → Nat) :
    ∀ (k : Nat) (l : List AccountId), l.Nodup →
      (sampleWithoutReplacement rand l k).Nodup := by
  intro k
  induction k with
  | zero => intro l _; rw [sampleWithoutReplacement_zero]; exact List.nodup_nil
  | succ k ih =>
    intro l hl
    match l with
    | [] => rw [sampleWithoutReplacement_nil]; exact List.nodup_nil
    | a :: l =>
      rw [sampleWithoutReplacement_cons]
      refine List.Nodup.cons ?_ (ih _ (List.Nodup.sublist (List.eraseIdx_sublist _ _) hl))
      intro hmem
      exact getElem_not_mem_eraseIdx (a :: l) _ (Nat.mod_lt _ (Nat.succ_pos _)) hl
        (sampleWithoutReplacement_subset rand k _ _ hmem)

/-- Inversion of a successful node selection: the count was positive, the
roster held enough distinct nodes, and the selection is the partial shuffle
over the distinct roster entries. -/
theorem selectNodes_eq_ok (roster : List AccountId) (count : Int) (rand : Nat → Nat)
    (sel : List AccountId) (h : selectNodes roster count rand = .ok sel) :
    0 < count ∧ count.toNat ≤ roster.dedup.length ∧
      sel = sampleWithoutReplacement rand roster.dedup count.toNat := by
  unfold selectNodes at h
  split at h
  · exact absurd h (by simp)
  · next hpos =>
    split at h
    · exact absurd h (by simp)
    · next hlen =>
      refine ⟨by omega, by omega, ?_⟩
      cases h
      rfl

/-- A successful node selection has exactly the requested length, no
duplicate node id, and every selected node belongs to the roster. -/
theorem selectNodes_ok_spec (roster : List AccountId) (count : Int) (rand : Nat → Nat)
    (sel : List AccountId) (h : selectNodes roster count rand = .ok sel) :
    sel.length = count.toNat ∧ sel.Nodup ∧ ∀ x ∈ sel, x ∈ roster := by
  obtain ⟨hpos, hle, hsel⟩ := selectNodes_eq_ok roster count rand sel h
  subst hsel
  refine ⟨sampleWithoutReplacement_length rand _ _ hle,
    sampleWithoutReplacement_nodup rand _ _ (List.nodup_dedup roster), ?_⟩
  intro x hx
  exact List.mem_dedup.1 (sampleWithoutReplacement_subset rand _ _ x hx)

/-- A successful batch signature has one signature map per node, in order. -/
theorem signForNodes_length (sign : List Nat → Option SignatureMap)
    (body : TransactionBody) :
    ∀ (ns : List AccountId) (sigs : List SignatureMap),
      signForNodes sign body ns = some sigs → sigs.length = ns.length := by
  intro ns
  induction ns with
  | nil => intro sigs h; simp only [signForNodes, Option.some.injEq] at h; simp [← h]
  | cons n ns ih =>
    intro sigs h
    simp only [signForNodes] at h
    split at h
    · next s rest hs hrest =>
      cases h
      simp [ih rest hrest]
    · exact absurd h (by simp)

/-- If the signing capability fails on any selected node-scoped body, the
whole batch signature fails. -/
theorem signForNodes_none_of_fail (sign : List Nat → Option SignatureMap)
    (body : TransactionBody) :
    ∀ (ns : List AccountId), (∃ n ∈ ns, sign (encodeBody (nodeScopedBody body n)) = none) →
      signForNodes sign body ns = none := by
  intro ns
  induction ns with
  | nil => rintro ⟨n, hn, _⟩; simp at hn
  | cons m ns ih =>
    rintro ⟨n, hn, hfail⟩
    simp only [List.mem_cons] at hn
    simp only [signForNodes]
    rcases hn with rfl | hn
    · rw [hfail]
    · rw [ih ⟨n, hn, hfail⟩]
      split <;> simp_all

/-- Inversion of a successful wallet-side handling: the raw bytes decoded to
a body without a node id, the count was positive, node selection succeeded
with exactly the returned node ids, and the batch signature produced exactly
the returned signature maps. -/
theorem handle_eq_ok (roster : List AccountId) (rand : Nat → Nat)
    (sign : List Nat → Option SignatureMap) (raw : List Nat) (count : Int)
    (res : SigningResult) (h : handle roster rand sign raw count = .ok res) :
    ∃ body, decodeBody raw = some body ∧ body.nodeAccountID = none ∧
      0 < count ∧ selectNodes roster count rand = .ok res.nodeAccountIds ∧
      signForNodes sign body res.nodeAccountIds = some res.signatureMaps := by
  unfold handle at h
  split at h
  · exact absurd h (by simp)
  · next body hdec =>
    split at h
    · exact absurd h (by simp)
    · next hnode =>
      split at h
      · exact absurd h (by simp)
      · next hcount =>
        split at h
        · exact absurd h (by simp)
        · next nodes hsel =>
          split at h
          · exact absurd h (by simp)
          · next sigs hsig =>
            cases h
            exact ⟨body, hdec, hnode, by omega, hsel, hsig⟩

/-- When the wire arrays are parallel and every signature map decodes, the
all-or-nothing fold succeeds and yields exactly the positional
reconstruction. -/
theorem reconstructList_eq_some (ob : TransactionBody) :
    ∀ (ws : List (List Nat)) (ns : List AccountId), ws.length = ns.length →
      (∀ w ∈ ws, (decodeSigMap w).isSome) →
      reconstructList ob ws ns = some (reconstructedTransactions ob ws ns) := by
  intro ws
  induction ws with
  | nil =>
    intro ns hlen _
    cases ns with
    | nil => rfl
    | cons n ns => simp at hlen
  | cons w ws ih =>
    intro ns hlen hdec
    cases ns with
    | nil => simp at hlen
    | cons n ns =>
      have hw : (decodeSigMap w).isSome := hdec w (by simp)
      obtain ⟨m, hm⟩ := Option.isSome_iff_exists.1 hw
      simp only [List.length_cons] at hlen
      simp only [reconstructList, reconstructOne, hm, Option.map_some,
        ih ns (by omega) (fun x hx => hdec x (by simp [hx])),
        reconstructedTransactions, List.zipWith_cons_cons, Option.getD_some]
      rfl

/-- A reconstructed transaction always carries the requester's own stripped
body, re-scoped to one of the returned node ids. -/
theorem mem_reconstructedTransactions (ob : TransactionBody) :
    ∀ (ws : List (List Nat)) (ns : List AccountId) (t : SignedTransaction),
      t ∈ reconstructedTransactions ob ws ns →
      ∃ n ∈ ns, t.body = nodeScopedBody (stripNodeId ob) n ∧ t.frozen = true := by
  intro ws
  induction ws with
  | nil => intro ns t ht; simp [reconstructedTransactions] at ht
  | cons w ws ih =>
    intro ns t ht
    cases ns with
    | nil => simp [reconstructedTransactions] at ht
    | cons n ns =>
      simp only [reconstructedTransactions, List.zipWith_cons_cons, List.mem_cons] at ht
      rcases ht with rfl | ht
      · exact ⟨n, by simp, rfl, rfl⟩
      · obtain ⟨n', hn', hbody, hfr⟩ := ih ns t ht
        exact ⟨n', by simp [hn'], hbody, hfr⟩

/-- Two complete serializations with the same canonical content but
different node ids differ, whatever their signature maps are. -/
theorem serialize_ne_of_node_ne (c : List Nat) (n1 n2 : AccountId)
    (s1 s2 : SignatureMap) (f1 f2 : Bool) (hne : n1 ≠ n2) :
    serializeSignedTransaction ⟨⟨some n1, c⟩, s1, f1⟩ ≠
      serializeSignedTransaction ⟨⟨some n2, c⟩, s2, f2⟩ := by
  intro h
  simp only [serializeSignedTransaction, encodeBody, List.cons_append,
    List.cons.injEq] at h
  obtain ⟨-, h1, h2, h3, -⟩ := h
  apply hne
  cases n1
  cases n2
  simp_all

/-- The i-th reconstructed transaction pairs the i-th node id with the
decoded i-th signature map over the requester's own stripped body. -/
theorem reconstructedTransactions_getElem (ob : TransactionBody)
    (ws : List (List Nat)) (ns : List AccountId) (i : Nat)
    (hw : i < ws.length) (hn : i < ns.length)
    (hi : i < (reconstructedTransactions ob ws ns).length) :
    (reconstructedTransactions ob ws ns)[i] =
      ⟨nodeScopedBody (stripNodeId ob) ns[i], (decodeSigMap ws[i]).getD ⟨[]⟩, true⟩ := by
  simp [reconstructedTransactions, List.getElem_zipWith]

/-- The number of reconstructed transactions equals the number of returned
signature maps when the wire arrays are parallel. -/
theorem reconstructedTransactions_length (ob : TransactionBody)
    (ws : List (List Nat)) (ns : List AccountId) (hlen : ws.length = ns.length) :
    (reconstructedTransactions ob ws ns).length = ws.length := by
  simp [reconstructedTransactions, hlen]

/-- C1: for every successful wallet-side signing result of
hedera_signTransactions, the signatureMaps and nodeAccountIds arrays have
equal length, that length never exceeds the requested node count, and
nodeAccountIds contains no duplicate node id. -/
theorem C1_signing_result_invariants (roster : List AccountId) (rand : Nat → Nat)
    (sign : List Nat → Option SignatureMap) (raw : List Nat) (count : Int)
    (res : SigningResult) (h : handle roster rand sign raw count = .ok res) :
    res.signatureMaps.length = res.nodeAccountIds.length ∧
    (res.nodeAccountIds.length : Int) ≤ count ∧
    res.nodeAccountIds.Nodup := by
  obtain ⟨body, hdec, hnode, hpos, hsel, hsig⟩ :=
    handle_eq_ok roster rand sign raw count res h
  obtain ⟨hlen, hnodup, -⟩ := selectNodes_ok_spec roster count rand res.nodeAccountIds hsel
  refine ⟨signForNodes_length sign body _ _ hsig, ?_, hnodup⟩
  rw [hlen]
  omega

/-- Witness for C1 at the concrete example inputs with requested count 2. -/
theorem C1_signing_result_invariants_witness :
    resEx.signatureMaps.length = resEx.nodeAccountIds.length ∧
    (resEx.nodeAccountIds.length : Int) ≤ 2 ∧
    resEx.nodeAccountIds.Nodup :=
  C1_signing_result_invariants rosterEx randEx signEx rawEx 2 resEx rfl

/-- C2: when the decoded transaction body already carries a node id, the
wallet-side handler returns an InvalidParams error (JSON-RPC code -32602)
whose message contains "must not have nodeAccountId set", and produces no
signing result. -/
theorem C2_reject_preset_node_id (roster : List AccountId) (rand : Nat → Nat)
    (sign : List Nat → Option SignatureMap) (raw : List Nat) (count : Int)
    (body : TransactionBody) (n : AccountId)
    (hdec : decodeBody raw = some body) (hnode : body.nodeAccountID = some n) :
    handle roster rand sign raw count =
      .error (.invalidParams "Transaction body must not have nodeAccountId set") ∧
    RpcError.code
      (.invalidParams "Transaction body must not have nodeAccountId set") = -32602 ∧
    containsSubstring "Transaction body must not have nodeAccountId set"
      "must not have nodeAccountId set" = true := by
  refine ⟨?_, rfl, by decide⟩
  simp only [handle, hdec, hnode]

/-- Witness for C2 at a concrete body that presets node 0.0.3. -/
theorem C2_reject_preset_node_id_witness :
    handle rosterEx randEx signEx (encodeBody presetBodyEx) 2 =
      .error (.invalidParams "Transaction body must not have nodeAccountId set") ∧
    RpcError.code
      (.invalidParams "Transaction body must not have nodeAccountId set") = -32602 ∧
    containsSubstring "Transaction body must not have nodeAccountId set"
      "must not have nodeAccountId set" = true :=
  C2_reject_preset_node_id rosterEx randEx signEx (encodeBody presetBodyEx) 2
    presetBodyEx ⟨0, 0, 3⟩ (by decide) rfl

/-- C4: for every roster R (a duplicate-free node set) and every k with
|R| >= k >= 1, node selection returns exactly k pairwise-distinct node ids,
each a member of R. -/
theorem C4_selection_success (roster : List AccountId) (count : Int) (rand : Nat → Nat)
    (hnodup : roster.Nodup) (h1 : 1 ≤ count) (h2 : count ≤ (roster.length : Int)) :
    selectNodes roster count rand =
      .ok (sampleWithoutReplacement rand roster.dedup count.toNat) ∧
    (sampleWithoutReplacement rand roster.dedup count.toNat).length = count.toNat ∧
    (sampleWithoutReplacement rand roster.dedup count.toNat).Nodup ∧
    List.Forall (fun x => x ∈ roster)
      (sampleWithoutReplacement rand roster.dedup count.toNat) := by
  have hded : roster.dedup = roster := List.dedup_eq_self.2 hnodup
  have hle : count.toNat ≤ roster.dedup.length := by rw [hded]; omega
  have hok : selectNodes roster count rand =
      .ok (sampleWithoutReplacement rand roster.dedup count.toNat) := by
    unfold selectNodes
    rw [if_neg (by omega), if_neg (by omega)]
  obtain ⟨hlen, hnd, hsub⟩ := selectNodes_ok_spec roster count rand _ hok
  exact ⟨hok, hlen, hnd, List.forall_iff_forall_mem.2 hsub⟩

/-- Witness for C4 at the three-node roster with k = 2. -/
theorem C4_selection_success_witness :
    selectNodes rosterEx 2 randEx =
      .ok (sampleWithoutReplacement randEx rosterEx.dedup (Int.toNat 2)) ∧
    (sampleWithoutReplacement randEx rosterEx.dedup (Int.toNat 2)).length = Int.toNat 2 ∧
    (sampleWithoutReplacement randEx rosterEx.dedup (Int.toNat 2)).Nodup ∧
    List.Forall (fun x => x ∈ rosterEx)
      (sampleWithoutReplacement randEx rosterEx.dedup (Int.toNat 2)) :=
  C4_selection_success rosterEx 2 randEx (by decide) (by decide) (by decide)

/-- A duplicate-free roster smaller than the requested count makes the node
selection fail with InsufficientNodes. -/
theorem selectNodes_insufficient (roster : List AccountId) (count : Int)
    (rand : Nat → Nat) (hnodup : roster.Nodup) (h : (roster.length : Int) < count) :
    selectNodes roster count rand = .error .insufficientNodes := by
  have hded : roster.dedup = roster := List.dedup_eq_self.2 hnodup
  unfold selectNodes
  rw [if_neg (by omega), if_pos (by rw [hded]; omega)]

/-- C5: whenever the requested count exceeds the roster size (including the
empty roster), node selection fails with InsufficientNodes and returns no
sequence at all. -/
theorem C5_insufficient_nodes (roster : List AccountId) (count : Int) (rand : Nat → Nat)
    (hnodup : roster.Nodup) (h : (roster.length : Int) < count) :
    selectNodes roster count rand = .error .insufficientNodes :=
  selectNodes_insufficient roster count rand hnodup h

/-- Witness for C5 at the empty roster with k = 1. -/
theorem C5_insufficient_nodes_witness :
    selectNodes [] 1 randEx = .error .insufficientNodes :=
  C5_insufficient_nodes [] 1 randEx (by decide) (by decide)

/-- C6: for every roster and every count <= 0, node selection fails with
InvalidCount; the count is never clamped to any other value. -/
theorem C6_invalid_count (roster : List AccountId) (count : Int) (rand : Nat → Nat)
    (h : count ≤ 0) : selectNodes roster count rand = .error .invalidCount := by
  unfold selectNodes
  rw [if_pos h]

/-- Witness for C6 at count -5 on the three-node roster. -/
theorem C6_invalid_count_witness :
    selectNodes rosterEx (-5) randEx = .error .invalidCount :=
  C6_invalid_count rosterEx (-5) randEx (by decide)

/-- C7: a wallet response whose signatureMaps and nodeAccountIds arrays have
different lengths makes the requester-side reconstruction fail with
MalformedResponse, returning no partially reconstructed list. -/
theorem C7_mismatched_lengths (ob : TransactionBody) (ws : List (List Nat))
    (ns : List AccountId) (h : ws.length ≠ ns.length) :
    reconstruct ob ws ns = .error .malformedResponse := by
  unfold reconstruct
  rw [if_pos h]

/-- Witness for C7 at one signature map against zero node ids. -/
theorem C7_mismatched_lengths_witness :
    reconstruct bodyEx [sigWireEx] [] = .error .malformedResponse :=
  C7_mismatched_lengths bodyEx [sigWireEx] [] (by decide)

/-- C3: for every well-formed SigningResult with m entries (for all m,
including m = 0), the requester-side reconstruction produces exactly m
signed transactions whose content stripped of the node id is byte-identical
to the original body stripped of the node id, and any two of them have
different complete serialized bytes. -/
theorem C3_reconstruction_faithful (ob : TransactionBody) (ws : List (List Nat))
    (ns : List AccountId) (hlen : ws.length = ns.length)
    (hdec : ∀ w ∈ ws, (decodeSigMap w).isSome) (hnodup : ns.Nodup) :
    reconstruct ob ws ns = .ok (reconstructedTransactions ob ws ns) ∧
    (reconstructedTransactions ob ws ns).length = ws.length ∧
    List.Forall (fun t => encodeBody (stripNodeId t.body) = encodeBody (stripNodeId ob))
      (reconstructedTransactions ob ws ns) ∧
    (reconstructedTransactions ob ws ns).Pairwise
      (fun a b => serializeSignedTransaction a ≠ serializeSignedTransaction b) := by
  have h2 := reconstructedTransactions_length ob ws ns hlen
  refine ⟨?_, h2, ?_, ?_⟩
  · unfold reconstruct
    rw [if_neg (by omega), reconstructList_eq_some ob ws ns hlen hdec]
  · refine List.forall_iff_forall_mem.2 ?_
    intro t ht
    obtain ⟨n, -, hbody, -⟩ := mem_reconstructedTransactions ob ws ns t ht
    rw [hbody]
    rfl
  · rw [List.pairwise_iff_getElem]
    intro i j hi hj hij
    have hwi : i < ws.length := by omega
    have hwj : j < ws.length := by omega
    have hni : i < ns.length := by omega
    have hnj : j < ns.length := by omega
    rw [reconstructedTransactions_getElem ob ws ns i hwi hni hi,
      reconstructedTransactions_getElem ob ws ns j hwj hnj hj]
    exact serialize_ne_of_node_ne ob.content ns[i] ns[j] _ _ true true
      (List.pairwise_iff_getElem.1 hnodup i j hni hnj hij)

/-- Witness for C3 at a two-entry signing result over nodes 0.0.3 and
0.0.4. -/
theorem C3_reconstruction_faithful_witness :
    reconstruct bodyEx [sigWireEx, sigWireEx] [⟨0, 0, 3⟩, ⟨0, 0, 4⟩] =
      .ok (reconstructedTransactions bodyEx [sigWireEx, sigWireEx]
        [⟨0, 0, 3⟩, ⟨0, 0, 4⟩]) ∧
    (reconstructedTransactions bodyEx [sigWireEx, sigWireEx]
      [⟨0, 0, 3⟩, ⟨0, 0, 4⟩]).length = 2 ∧
    List.Forall (fun t => encodeBody (stripNodeId t.body) = encodeBody (stripNodeId bodyEx))
      (reconstructedTransactions bodyEx [sigWireEx, sigWireEx] [⟨0, 0, 3⟩, ⟨0, 0, 4⟩]) ∧
    (reconstructedTransactions bodyEx [sigWireEx, sigWireEx]
      [⟨0, 0, 3⟩, ⟨0, 0, 4⟩]).Pairwise
      (fun a b => serializeSignedTransaction a ≠ serializeSignedTransaction b) :=
  C3_reconstruction_faithful bodyEx [sigWireEx, sigWireEx] [⟨0, 0, 3⟩, ⟨0, 0, 4⟩]
    rfl (by decide) (by decide)

/-- C8: when the signing capability fails on any node of the batch, the
wallet-side handler fails the whole request with an InternalError (JSON-RPC
code -32603) whose message contains "Signing failed"; no mixed
success/failure result is returned. -/
theorem C8_signing_failure_atomic (roster : List AccountId) (rand : Nat → Nat)
    (sign : List Nat → Option SignatureMap) (raw : List Nat) (count : Int)
    (body : TransactionBody) (nodes : List AccountId)
    (hdec : decodeBody raw = some body) (hnode : body.nodeAccountID = none)
    (hcount : 0 < count) (hsel : selectNodes roster count rand = .ok nodes)
    (hfail : ∃ n ∈ nodes, sign (encodeBody (nodeScopedBody body n)) = none) :
    handle roster rand sign raw count =
      .error (.internalError "Signing failed: signing capability error") ∧
    RpcError.code (.internalError "Signing failed: signing capability error") = -32603 ∧
    containsSubstring "Signing failed: signing capability error"
      "Signing failed" = true := by
  refine ⟨?_, rfl, by decide⟩
  have hif : ¬count ≤ 0 := by omega
  simp only [handle, hdec, hnode, if_neg hif, hsel,
    signForNodes_none_of_fail sign body nodes hfail]

/-- Witness for C8: a signing capability whose key is unavailable fails the
whole request on the concrete example inputs. -/
theorem C8_signing_failure_atomic_witness :
    handle rosterEx randEx signFailEx rawEx 1 =
      .error (.internalError "Signing failed: signing capability error") ∧
    RpcError.code (.internalError "Signing failed: signing capability error") = -32603 ∧
    containsSubstring "Signing failed: signing capability error"
      "Signing failed" = true :=
  C8_signing_failure_atomic rosterEx randEx signFailEx rawEx 1 bodyEx
    [⟨0, 0, 3⟩] rfl rfl (by decide) rfl ⟨⟨0, 0, 3⟩, by decide, rfl⟩

/-- C9: an undecodable raw transaction body makes the wallet-side handler
return InvalidParams (code -32602) whose message contains "Failed to decode
transaction body", and a node-selection failure (roster smaller than the
requested count, including the empty roster) makes it return InternalError
(code -32603) whose message contains "Node selection failed". -/
theorem C9_decode_and_selection_failures :
    (∀ (roster : List AccountId) (rand : Nat → Nat)
      (sign : List Nat → Option SignatureMap) (raw : List Nat) (count : Int),
      decodeBody raw = none →
      handle roster rand sign raw count =
        .error (.invalidParams "Failed to decode transaction body") ∧
      RpcError.code (.invalidParams "Failed to decode transaction body") = -32602 ∧
      containsSubstring "Failed to decode transaction body"
        "Failed to decode transaction body" = true) ∧
    (∀ (roster : List AccountId) (rand : Nat → Nat)
      (sign : List Nat → Option SignatureMap) (raw : List Nat) (count : Int)
      (body : TransactionBody),
      decodeBody raw = some body → body.nodeAccountID = none →
      roster.Nodup → 0 < count → (roster.length : Int) < count →
      handle roster rand sign raw count =
        .error (.internalError "Node selection failed") ∧
      RpcError.code (.internalError "Node selection failed") = -32603 ∧
      containsSubstring "Node selection failed" "Node selection failed" = true) := by
  constructor
  · intro roster rand sign raw count hdec
    refine ⟨?_, rfl, by decide⟩
    simp only [handle, hdec]
  · intro roster rand sign raw count body hdec hnode hnodup hcount hlt
    refine ⟨?_, rfl, by decide⟩
    have hif : ¬count ≤ 0 := by omega
    simp only [handle, hdec, hnode, if_neg hif,
      selectNodes_insufficient roster count rand hnodup hlt]

/-- Witness for C9: corrupted bytes are rejected as undecodable, and a
request for five nodes against the three-node roster fails node
selection. -/
theorem C9_decode_and_selection_failures_witness :
    (handle rosterEx randEx signEx [9, 9] 2 =
        .error (.invalidParams "Failed to decode transaction body") ∧
      RpcError.code (.invalidParams "Failed to decode transaction body") = -32602 ∧
      containsSubstring "Failed to decode transaction body"
        "Failed to decode transaction body" = true) ∧
    (handle rosterEx randEx signEx rawEx 5 =
        .error (.internalError "Node selection failed") ∧
      RpcError.code (.internalError "Node selection failed") = -32603 ∧
      containsSubstring "Node selection failed" "Node selection failed" = true) :=
  ⟨C9_decode_and_selection_failures.1 rosterEx randEx signEx [9, 9] 2 rfl,
    C9_decode_and_selection_failures.2 rosterEx randEx signEx rawEx 5 bodyEx
      rfl rfl (by decide) (by decide) (by decide)⟩

/-- C10: the requester-side signing call strips any preset node ids from
the body it encodes, so the transaction body sent across the wallet
boundary never has a node account id set, and a preset node id on the
requester's own transaction is not treated as an error: the call still
succeeds on any well-formed wallet response. -/
theorem C10_requester_strips_preset_node (sid : String) (tx : TransactionBody)
    (nodeCount : Option Int) (ws : List (List Nat)) (ns : List AccountId)
    (hlen : ws.length = ns.length) (hdec : ∀ w ∈ ws, (decodeSigMap w).isSome) :
    decodeBody (buildSignTransactionsRequest sid tx nodeCount).transactionBody =
      some (stripNodeId tx) ∧
    (stripNodeId tx).nodeAccountID = none ∧
    dappSignTransactions sid tx nodeCount (fun _ => (ws, ns)) =
      .ok (reconstructedTransactions tx ws ns) := by
  refine ⟨decodeBody_encodeBody (stripNodeId tx), rfl, ?_⟩
  show reconstruct tx ws ns = .ok (reconstructedTransactions tx ws ns)
  unfold reconstruct
  rw [if_neg (by omega), reconstructList_eq_some tx ws ns hlen hdec]

/-- Witness for C10 at a requester transaction that presets node 0.0.3 and a
two-entry wallet response. -/
theorem C10_requester_strips_preset_node_witness :
    decodeBody (buildSignTransactionsRequest "hedera:testnet:0.0.123" presetBodyEx
      (some 2)).transactionBody = some (stripNodeId presetBodyEx) ∧
    (stripNodeId presetBodyEx).nodeAccountID = none ∧
    dappSignTransactions "hedera:testnet:0.0.123" presetBodyEx (some 2)
      (fun _ => ([sigWireEx, sigWireEx], [⟨0, 0, 3⟩, ⟨0, 0, 4⟩])) =
      .ok (reconstructedTransactions presetBodyEx [sigWireEx, sigWireEx]
        [⟨0, 0, 3⟩, ⟨0, 0, 4⟩]) :=
  C10_requester_strips_preset_node "hedera:testnet:0.0.123" presetBodyEx (some 2)
    [sigWireEx, sigWireEx] [⟨0, 0, 3⟩, ⟨0, 0, 4⟩] rfl (by decide)

end HederaWC
